import Mathlib

/-!
Verification of the problem-selection, contest-lifecycle and rating-update core of the
CircleOfInevitibility backend (app/services/problem_service.py, contest_service.py,
rating_service.py, app/models.py).

The Python services are shallowly embedded as pure Lean functions:
* database rows become records, the per-user database state becomes explicit record state;
* `random.choice` / `random.shuffle` / `random.sample` become an `Oracle` of functions,
  indexed by a call counter; theorems quantify over all oracles (with the membership /
  sub-permutation contracts those library functions satisfy);
* Python exceptions become `Option`/`Except`-style error results, and the state mutations
  that were committed before a raise are kept in the returned state;
* `datetime` values become integer second counts.
-/

/-- Contest status enum (models.ContestStatus). -/
inductive ContestStatus where
  | active
  | completed
  | abandoned
deriving DecidableEq

/-- Submission status enum: `models.SubmissionStatus` declares exactly
PENDING/SOLVED/FAILED/SKIPPED.  `rating_service.calculate_contest_result` also references
`SubmissionStatus.PARTIAL`, which does not exist - in Python that attribute lookup raises
AttributeError; the embedding keeps the enum as declared and models that lookup as an
error (see `calculate_contest_result`). -/
inductive SubmissionStatus where
  | pending
  | solved
  | failed
  | skipped
deriving DecidableEq

/-- Catalog problem (problem_service.Problem dataclass; the unused `extra` dict is dropped). -/
structure Problem where
  id : String
  name : String
  url : String
  source : String
  difficulty : Int
  primary_skills : List String
  secondary_skills : List String
  pattern_id : Option String
  tags : List String
deriving DecidableEq

/-- Fallback topic from the first primary skill (problem_service._get_topic, else-branches).
Python `skill.lower().replace(" ", "_")` becomes `String.toLower` / `String.replace`. -/
def skill_topic (p : Problem) : String :=
  match p.primary_skills with
  | [] => "general"
  | sk :: _ => "skill_" ++ ((sk.toLower).replace " " "_")

/-- problem_service._get_topic.  Python truthiness: an absent or empty pattern_id falls
through to the skill fallback. -/
def get_topic (p : Problem) : String :=
  match p.pattern_id with
  | some pid => if pid = "" then skill_topic p else pid
  | none => skill_topic p

/-- The loaded in-memory problem collection (`ProblemService._problems` after load). -/
structure ProblemStore where
  problems : List Problem
deriving DecidableEq

/-- problem_service.load_problems: entries with an empty id or url are skipped; the rest are
kept in file order. (The by-id / by-difficulty indexes are not used by selection.) -/
def mkProblemStore (raw : List Problem) : ProblemStore :=
  ⟨raw.filter (fun p => decide (p.id ≠ "" ∧ p.url ≠ ""))⟩

/-- The by-topic index `ProblemService._problems_by_topic[t]`: problems with topic `t`,
in load order. -/
def problemsByTopic (s : ProblemStore) (topic : String) : List Problem :=
  s.problems.filter (fun p => decide (get_topic p = topic))

def insertKey (ks : List String) (k : String) : List String :=
  if k ∈ ks then ks else ks ++ [k]

/-- The key set of `_problems_by_topic`, in first-insertion order. -/
def topicKeys (s : ProblemStore) : List String :=
  s.problems.foldl (fun ks p => insertKey ks (get_topic p)) []

/-- The randomness consumed by selection: `pick` models `random.choice` (indexed by the
call counter), `shuffleK` models `random.shuffle` (indexed by the attempt counter at which
the shuffle happens), `sample` models `random.sample`. -/
structure Oracle where
  pick : Nat → List Problem → Option Problem
  shuffleK : Nat → List String → List String
  sample : List Problem → Nat → List Problem

/-- `random.choice` returns a member of its (non-empty) argument. -/
def PickMem (o : Oracle) : Prop :=
  ∀ n l p, o.pick n l = some p → p ∈ l

/-- `random.sample` returns a sub-permutation (distinct positions, random order) of its
argument. -/
def SampleSub (o : Oracle) : Prop :=
  ∀ l n, (o.sample l n).Subperm l

/-- `random.sample l n` has exactly `n` elements whenever `n < l.length` (the only way the
service calls it). -/
def SampleLen (o : Oracle) : Prop :=
  ∀ l n, n < l.length → (o.sample l n).length = n

/-- ProblemService.DIFFICULTY_TOLERANCE. -/
def DIFFICULTY_TOLERANCE : Int := 5

/-- problem_service._select_problem_for_topic: candidates in the topic's bucket within
`tolerance` of `difficulty` and not excluded; if none, retry with doubled tolerance;
pick at random (here: `pickF`) or return none. -/
def select_problem_for_topic (pickF : List Problem → Option Problem) (s : ProblemStore)
    (topic : String) (difficulty : Int) (tolerance : Int) (excluded : List String) :
    Option Problem :=
  if topic ∉ topicKeys s then none
  else
    let pool := problemsByTopic s topic
    let c1 := pool.filter (fun p =>
      decide (p.id ∉ excluded ∧ |p.difficulty - difficulty| ≤ tolerance))
    let c2 :=
      if c1.isEmpty then
        pool.filter (fun p =>
          decide (p.id ∉ excluded ∧ |p.difficulty - difficulty| ≤ tolerance * 2))
      else c1
    if c2.isEmpty then none else pickF c2

/-- One item of the Selector's output (`{"problem": ..., "topic": ..., ...}` dict). -/
structure SelItem where
  problem : Problem
  topic : String
  is_weak_topic_problem : Bool
  target_difficulty : Int
deriving DecidableEq

/-- Accumulator of the weak-topic slice: selected items, used topics, used problem ids. -/
structure SliceAcc where
  selected : List SelItem
  used_topics : List String
  used_ids : List String
deriving DecidableEq

/-- The weak-topic slice of select_problems_for_contest: one pass over the reserved weak
topics, drawing at difficulty `target - 10` with tolerance `DIFFICULTY_TOLERANCE + 5`;
a topic with no candidate contributes nothing. -/
def weak_slice_aux (o : Oracle) (s : ProblemStore) (target : Int) :
    Nat → List String → SliceAcc → SliceAcc
  | _, [], acc => acc
  | i, wt :: rest, acc =>
    match select_problem_for_topic (o.pick i) s wt (target - 10)
        (DIFFICULTY_TOLERANCE + 5) acc.used_ids with
    | some p =>
        weak_slice_aux o s target (i + 1) rest
          ⟨acc.selected ++ [⟨p, wt, true, target - 10⟩],
           acc.used_topics ++ [wt], acc.used_ids ++ [p.id]⟩
    | none => weak_slice_aux o s target (i + 1) rest acc

/-- State of the topic-diversity while-loop. -/
structure LoopSt where
  selected : List SelItem
  used_topics : List String
  used_ids : List String
  avail : List String
  idx : Nat
  attempts : Nat
deriving DecidableEq

/-- The diversity while-loop of select_problems_for_contest, fuelled by the remaining
attempt budget (`max_attempts - attempts`).  When the topic cursor runs past the end it is
reset; once `attempts` exceeds the pool size the full (re-shuffled) key list replaces the
pool.  A cursor read past the end of an empty pool is Python's IndexError, embedded as
`none`. -/
def diversity_loop (o : Oracle) (s : ProblemStore) (target : Int) (num : Nat) :
    Nat → LoopSt → Option LoopSt
  | 0, st => some st
  | fuel + 1, st =>
    if num ≤ st.selected.length then some st
    else
      let attempts := st.attempts + 1
      let pair :=
        if st.avail.length ≤ st.idx then
          if st.avail.length < attempts then (o.shuffleK attempts (topicKeys s), 0)
          else (st.avail, 0)
        else (st.avail, st.idx)
      match pair.1.get? pair.2 with
      | none => none
      | some topic =>
        match select_problem_for_topic (o.pick attempts) s topic target
            DIFFICULTY_TOLERANCE st.used_ids with
        | some p =>
            diversity_loop o s target num fuel
              ⟨st.selected ++ [⟨p, topic, false, target⟩], st.used_topics ++ [topic],
               st.used_ids ++ [p.id], pair.1, pair.2 + 1, attempts⟩
        | none =>
            diversity_loop o s target num fuel
              ⟨st.selected, st.used_topics, st.used_ids, pair.1, pair.2 + 1, attempts⟩

/-- problem_service._select_fallback_problems: any problem within 3x tolerance of the
target and not yet used; if more candidates than needed, a random sample. -/
def select_fallback_problems (o : Oracle) (s : ProblemStore) (difficulty : Int)
    (count : Nat) (excluded : List String) : List Problem :=
  let candidates := s.problems.filter (fun p =>
    decide (p.id ∉ excluded ∧ |p.difficulty - difficulty| ≤ DIFFICULTY_TOLERANCE * 3))
  if candidates.length ≤ count then candidates else o.sample candidates count

/-- problem_service.select_problems_for_contest.  Returns `none` only for the embedded
IndexError (diversity loop reading from an empty topic pool). -/
def select_problems_for_contest (o : Oracle) (s : ProblemStore) (target_difficulty : Int)
    (num_problems : Nat) (weak_topics : List String) (excluded_problem_ids : List String)
    (include_weak_topics : Bool) : Option (List SelItem) :=
  let weak_topic_count : Nat :=
    if include_weak_topics ∧ weak_topics ≠ [] then
      min weak_topics.length (max 1 (num_problems / 3))
    else 0
  let acc := weak_slice_aux o s target_difficulty 0 (weak_topics.take weak_topic_count)
    ⟨[], [], excluded_problem_ids⟩
  let avail := o.shuffleK 0 ((topicKeys s).filter (fun t => decide (t ∉ acc.used_topics)))
  let fuel := (((num_problems : Int) - acc.selected.length) * 10).toNat
  match diversity_loop o s target_difficulty num_problems fuel
      ⟨acc.selected, acc.used_topics, acc.used_ids, avail, 0, 0⟩ with
  | none => none
  | some st =>
    if st.selected.length < num_problems then
      let fb := select_fallback_problems o s target_difficulty
        (num_problems - st.selected.length) st.used_ids
      some (st.selected ++ fb.map (fun p => ⟨p, get_topic p, false, target_difficulty⟩))
    else some st.selected

/-! ## Rating engine state (models.UserTopicRating, models.WeakTopic, models.User) -/

/-- Per-topic rating row for one user (timestamps omitted; no claim mentions them). -/
structure TopicRating where
  topic : String
  rating : Int
  problems_solved : Nat
  problems_attempted : Nat
deriving DecidableEq

/-- Weak-topic row for one user (timestamps omitted; no claim mentions them). -/
structure WeakTopic where
  topic : String
  current_level : Int
  target_level : Int
  consecutive_solves : Nat
  total_attempts : Nat
  total_failures : Nat
  is_active : Bool
deriving DecidableEq

/-- models.User default rating (Column(Integer, default=20)). -/
def USER_DEFAULT_RATING : Int := 20

/-- One user's rating-relevant database state. -/
structure EngineState where
  userRating : Int
  totalContests : Nat
  totalSolved : Nat
  totalAttempted : Nat
  topicRatings : List TopicRating
  weakTopics : List WeakTopic
deriving DecidableEq

/-- RatingService.RATING_INCREASE. -/
def RATING_INCREASE : Int := 10

/-- RatingService.WEAK_TOPIC_SOLVES_TO_ADVANCE. -/
def WEAK_TOPIC_SOLVES_TO_ADVANCE : Nat := 2

/-- RatingService.WEAK_TOPIC_LEVEL_STEP. -/
def WEAK_TOPIC_LEVEL_STEP : Int := 5

/-- The topic-rating mutation of _process_regular_topic_result:
solve gives +5 capped at 3000, failure gives -3 floored at 100. -/
def topic_rating_step (r : Int) (solved : Bool) : Int :=
  if solved then min (r + 5) 3000 else max (r - 3) 100

/-- Lazy creation of a UserTopicRating row, seeded at the user's overall rating. -/
def fresh_topic_rating (topic : String) (userRating : Int) : TopicRating :=
  ⟨topic, userRating, 0, 0⟩

/-- The WeakTopic row created at detection time (_process_regular_topic_result). -/
def detect_weak_topic (topic : String) (userRating : Int) : WeakTopic :=
  ⟨topic, max 10 (userRating - 20), userRating + 10, 0, 0, 0, true⟩

/-- Replace the first list element satisfying `q` (the row returned by `.first()`). -/
def updateFirst {α : Type} (q : α → Bool) (f : α → α) : List α → List α
  | [] => []
  | x :: xs => if q x then f x :: xs else x :: updateFirst q f xs

/-- The per-row body of _process_regular_topic_result: increment attempts; on a solve,
count it and raise the rating; on a failure, detect a weak topic when this is at least
the 2nd attempt, the solve ratio is at most one half, and no active WeakTopic exists,
then lower the rating.  The float test `1 - solved/attempted >= 0.5` is the exact real
condition `2 * solved <= attempted` (binary doubles cannot misround it for any feasible
count). -/
def regular_step (userRating : Int) (activeWeak : Bool) (tr : TopicRating) (solved : Bool) :
    TopicRating × Option WeakTopic :=
  let tr1 := { tr with problems_attempted := tr.problems_attempted + 1 }
  if solved then
    ({ tr1 with
        problems_solved := tr1.problems_solved + 1,
        rating := topic_rating_step tr1.rating true }, none)
  else
    ({ tr1 with rating := topic_rating_step tr1.rating false },
     if 2 ≤ tr1.problems_attempted ∧ 2 * tr1.problems_solved ≤ tr1.problems_attempted ∧
         activeWeak = false
     then some (detect_weak_topic tr.topic userRating) else none)

/-- RatingService._process_regular_topic_result on the engine state. -/
def process_regular_topic_result (e : EngineState) (topic : String) (solved : Bool) :
    EngineState :=
  let activeW := (e.weakTopics.find? (fun w => w.topic == topic && w.is_active)).isSome
  match e.topicRatings.find? (fun t => t.topic == topic) with
  | some tr =>
      let r := regular_step e.userRating activeW tr solved
      { e with
        topicRatings := updateFirst (fun t => t.topic == topic) (fun _ => r.1) e.topicRatings,
        weakTopics := e.weakTopics ++ r.2.toList }
  | none =>
      let r := regular_step e.userRating activeW (fresh_topic_rating topic e.userRating) solved
      { e with topicRatings := e.topicRatings ++ [r.1],
               weakTopics := e.weakTopics ++ r.2.toList }

/-- The body of RatingService._process_weak_topic_result once an active WeakTopic row is
in hand: bump attempts; a solve bumps the streak and, at 2 consecutive solves, raises the
level by +5, resets the streak, and resolves the topic when the target is reached; a
failure resets the streak and, after more than 3 total failures above level 10, lowers the
level by 5 with floor 10. -/
def weak_topic_step (wt : WeakTopic) (solved : Bool) : WeakTopic :=
  let wt1 := { wt with total_attempts := wt.total_attempts + 1 }
  if solved then
    let c := wt1.consecutive_solves + 1
    if WEAK_TOPIC_SOLVES_TO_ADVANCE ≤ c then
      let l := wt1.current_level + WEAK_TOPIC_LEVEL_STEP
      if wt1.target_level ≤ l then
        { wt1 with consecutive_solves := 0, current_level := l, is_active := false }
      else { wt1 with consecutive_solves := 0, current_level := l }
    else { wt1 with consecutive_solves := c }
  else
    let f := wt1.total_failures + 1
    if 3 < f ∧ 10 < wt1.current_level then
      { wt1 with
          total_failures := f, consecutive_solves := 0,
          current_level := max 10 (wt1.current_level - WEAK_TOPIC_LEVEL_STEP) }
    else { wt1 with total_failures := f, consecutive_solves := 0 }

/-- What one engine update does to a given WeakTopic row: the active-row query finds it
only while `is_active`; afterwards the row is left untouched. -/
def weak_topic_engine_step (wt : WeakTopic) (solved : Bool) : WeakTopic :=
  if wt.is_active then weak_topic_step wt solved else wt

/-- RatingService._process_weak_topic_result on the engine state (no-op when no active
WeakTopic row matches the topic). -/
def process_weak_topic_result (e : EngineState) (topic : String) (solved : Bool) :
    EngineState :=
  match e.weakTopics.find? (fun w => w.topic == topic && w.is_active) with
  | none => e
  | some _ =>
      { e with
          weakTopics := updateFirst (fun w => w.topic == topic && w.is_active)
            (fun w => weak_topic_step w solved) e.weakTopics }

/-! ## Contest lifecycle (contest_service.py) -/

/-- A contest_problems row. -/
structure ContestProblemRec where
  problem_id : String
  topic : String
  difficulty : Int
  is_weak_topic_problem : Bool
  status : SubmissionStatus
  started_at : Option Int
  submitted_at : Option Int
  time_taken_seconds : Option Int
  attempts : Nat
deriving DecidableEq

/-- A contests row together with its problems. -/
structure ContestRec where
  status : ContestStatus
  started_at : Int
  time_limit_minutes : Int
  ended_at : Option Int
  rating_change : Int
  problems_solved : Nat
  total_time_seconds : Int
  problems : List ContestProblemRec
deriving DecidableEq

/-- A problem_history row. -/
structure ProblemHistoryRec where
  problem_id : String
  times_attempted : Nat
  times_solved : Nat
  best_time_seconds : Option Int
  last_attempted_at : Int
deriving DecidableEq

/-- The state a contest-service operation can touch: the contest, the user's rating
state, and the user's problem history. -/
structure SysState where
  contest : ContestRec
  engine : EngineState
  history : List ProblemHistoryRec
deriving DecidableEq

/-- The error conditions of the contest and rating services, as an error enum: the
ValueError raises, plus the AttributeError raised by the `SubmissionStatus.PARTIAL`
lookup at rating_service.py:48 (`partialAttributeError`). -/
inductive SvcError where
  | contestNotActive
  | problemNotFound
  | timeLimitExceeded
  | notEnoughProblems
  | selectionFailed
  | partialAttributeError
deriving DecidableEq

/-- The summary returned by calculate_contest_result (the per-topic reporting lists are
not referenced by any claim and are omitted; the state transitions behind them are in the
engine state). -/
structure RatingResult where
  old_rating : Int
  new_rating : Int
  rating_change : Int
  problems_solved : Nat
  total_problems : Nat
deriving DecidableEq

/-- RatingService.calculate_contest_result.  Line 47 builds the solved list; line 48
builds the failed list by testing `p.status in [SubmissionStatus.FAILED,
SubmissionStatus.PARTIAL]` - the PARTIAL lookup is evaluated inside the comprehension's
condition and `models.SubmissionStatus` has no PARTIAL member, so the comprehension
raises AttributeError at its first element.  The function therefore completes only when
the problem list is empty; the rest of the body (weak/regular routing, the +10 rating
change exactly when every problem is SOLVED) runs only on that empty list, where the
comprehension yields [] without evaluating the condition. -/
def calculate_contest_result (e : EngineState) (problems : List ContestProblemRec) :
    Except SvcError (EngineState × RatingResult) :=
  let solvedCount := (problems.filter (fun p => decide (p.status = .solved))).length
  if problems ≠ [] then .error .partialAttributeError
  else
    let all_solved := solvedCount == problems.length
    let e1 := problems.foldl
      (fun acc p =>
        if p.is_weak_topic_problem then
          process_weak_topic_result acc p.topic (decide (p.status = .solved))
        else process_regular_topic_result acc p.topic (decide (p.status = .solved))) e
    let pair : Int × Int :=
      if all_solved then (RATING_INCREASE, e1.userRating + RATING_INCREASE)
      else (0, e1.userRating)
    let e2 := { e1 with
                  userRating := pair.2,
                  totalContests := e1.totalContests + 1,
                  totalSolved := e1.totalSolved + solvedCount,
                  totalAttempted := e1.totalAttempted + problems.length }
    .ok (e2, ⟨e.userRating, pair.2, pair.1, solvedCount, problems.length⟩)

/-- The end-of-contest collapse: PENDING and SKIPPED problems become FAILED. -/
def fail_unfinished (p : ContestProblemRec) : ContestProblemRec :=
  if p.status = .pending ∨ p.status = .skipped then { p with status := .failed } else p

/-- ContestService.end_contest: requires an ACTIVE contest; collapses unfinished problems
to FAILED, completes the contest, sums solved time (`or 0` for missing times), commits
(those changes survive any later raise), then runs the rating engine.  When the rating
engine raises the PARTIAL AttributeError, the contest is left COMPLETED with its default
rating_change, the user's rating state is untouched, and no result is returned. -/
def end_contest (now : Int) (s : SysState) :
    SysState × Option SvcError × Option RatingResult :=
  if s.contest.status ≠ ContestStatus.active then (s, some .contestNotActive, none)
  else
    let problems := s.contest.problems.map fail_unfinished
    let total_time := (problems.filter (fun p => decide (p.status = .solved))).foldl
      (fun a p => a + p.time_taken_seconds.getD 0) 0
    let contest1 := { s.contest with
      status := ContestStatus.completed, ended_at := some now, problems := problems,
      total_time_seconds := total_time }
    match calculate_contest_result s.engine problems with
    | .error err => (⟨contest1, s.engine, s.history⟩, some err, none)
    | .ok r =>
        let contest2 := { contest1 with
          rating_change := r.2.rating_change, problems_solved := r.2.problems_solved }
        (⟨contest2, r.1, s.history⟩, none, some r.2)

/-- ContestService._update_problem_history: upsert of the (user, problem) history row.
Python `if time_seconds and (... or time_seconds < best)` treats 0 as falsy. -/
def update_problem_history (now : Int) (pid : String) (solved : Bool) (t : Option Int)
    (hs : List ProblemHistoryRec) : List ProblemHistoryRec :=
  match hs.find? (fun h => h.problem_id == pid) with
  | some _ =>
      updateFirst (fun h => h.problem_id == pid)
        (fun h =>
          let h1 := { h with
                        times_attempted := h.times_attempted + 1,
                        last_attempted_at := now }
          if solved then
            let h2 := { h1 with times_solved := h1.times_solved + 1 }
            let better :=
              match t, h2.best_time_seconds with
              | some ts, none => decide (ts ≠ 0)
              | some ts, some b => decide (ts ≠ 0 ∧ ts < b)
              | none, _ => false
            if better then { h2 with best_time_seconds := t } else h2
          else h1) hs
  | none => hs ++ [⟨pid, 1, if solved then 1 else 0, if solved then t else none, now⟩]

/-- ContestService.start_problem: records the first-view timestamp, idempotently.
There is no check of the parent contest's status. -/
def start_problem (now : Int) (pid : String) (c : ContestRec) :
    ContestRec × Option SvcError :=
  match c.problems.find? (fun p => p.problem_id == pid) with
  | none => (c, some .problemNotFound)
  | some cp =>
      if cp.started_at = none then
        ({ c with
            problems := updateFirst (fun p => p.problem_id == pid)
              (fun p => { p with started_at := some now }) c.problems }, none)
      else (c, none)

/-- ContestService.skip_problem: marks the problem SKIPPED and stamps submitted_at.
There is no check of the parent contest's status. -/
def skip_problem (now : Int) (pid : String) (c : ContestRec) :
    ContestRec × Option SvcError :=
  match c.problems.find? (fun p => p.problem_id == pid) with
  | none => (c, some .problemNotFound)
  | some _ =>
      ({ c with
          problems := updateFirst (fun p => p.problem_id == pid)
            (fun p => { p with status := .skipped, submitted_at := some now }) c.problems },
       none)

/-- ContestService.submit_problem: rejects a non-ACTIVE contest; on an elapsed time limit
it first calls end_contest (whose committed state changes survive) - when that auto-end
itself raises (the PARTIAL AttributeError, for any non-empty contest) the exception
propagates and the `raise ValueError("Contest time limit exceeded")` on the next line is
never reached; only when the auto-end completes is the time-limit error reported.
Otherwise it records the submission and upserts history.  The pair carries the post-state
and the error, mirroring committed-then-raised Python state. -/
def submit_problem (now : Int) (pid : String) (solved : Bool)
    (time_taken_seconds : Option Int) (s : SysState) : SysState × Option SvcError :=
  if s.contest.status ≠ ContestStatus.active then (s, some .contestNotActive)
  else if s.contest.time_limit_minutes * 60 < now - s.contest.started_at then
    match end_contest now s with
    | (s', some err, _) => (s', some err)
    | (s', none, _) => (s', some .timeLimitExceeded)
  else
    match s.contest.problems.find? (fun p => p.problem_id == pid) with
    | none => (s, some .problemNotFound)
    | some cp =>
        let t : Option Int :=
          match time_taken_seconds with
          | some ts => some ts
          | none =>
            match cp.started_at with
            | some st => some (now - st)
            | none => cp.time_taken_seconds
        (⟨{ s.contest with
              problems := updateFirst (fun p => p.problem_id == pid)
                (fun p => { p with
                              submitted_at := some now, attempts := p.attempts + 1,
                              time_taken_seconds := t,
                              status := if solved then SubmissionStatus.solved
                                        else SubmissionStatus.failed })
                s.contest.problems },
           s.engine, update_problem_history now pid solved t s.history⟩, none)

/-- The per-item weak-difficulty adjustment inside ContestService.create_contest: a
weak-flagged item's `target_difficulty` dict entry is overwritten with the active
WeakTopic's current_level (the entry is never persisted further). -/
def adjust_item (user_weak_topics : List WeakTopic) (item : SelItem) : SelItem :=
  if item.is_weak_topic_problem then
    match (user_weak_topics.filter (fun w => w.topic == item.topic && w.is_active)).head? with
    | some w => { item with target_difficulty := w.current_level }
    | none => item
  else item

/-- The ContestProblem row built for one selected item in create_contest: the difficulty
column is the catalog problem's own difficulty. -/
def mk_contest_problem (item : SelItem) : ContestProblemRec :=
  ⟨item.problem.id, item.topic, item.problem.difficulty, item.is_weak_topic_problem,
   .pending, none, none, none, 0⟩

/-- ContestService.create_contest, from the selection onward (user lookup and the
one-active-contest guard are request-layer state outside this embedding): target is
rating + 10, active weak topics feed the Selector, a short selection fails, and the
contest_problems rows are built after the weak-difficulty adjustment. -/
def create_contest (o : Oracle) (s : ProblemStore) (user_rating : Int)
    (user_weak_topics : List WeakTopic) (excluded_ids : List String)
    (num_problems : Nat) (include_weak_topics : Bool) :
    Except SvcError (List ContestProblemRec) :=
  let target := user_rating + 10
  let wts := if include_weak_topics then
      (user_weak_topics.filter (fun w => w.is_active)).map (fun w => w.topic)
    else []
  match select_problems_for_contest o s target num_problems wts excluded_ids
      include_weak_topics with
  | none => .error .selectionFailed
  | some sel =>
    if sel.length < num_problems then .error .notEnoughProblems
    else .ok ((sel.map (adjust_item user_weak_topics)).map mk_contest_problem)

/-! ## Concrete instances used by counterexamples and witnesses -/

/-- A deterministic oracle: `choice` takes the head, `shuffle` is the identity,
`sample` takes a prefix. -/
def oracleHead : Oracle := ⟨fun _ l => l.head?, fun _ l => l, fun l n => l.take n⟩

theorem oracleHead_pick_mem : PickMem oracleHead := by
  intro n l p h
  cases l with
  | nil => exact absurd h (by simp [oracleHead])
  | cons a t =>
      have ha : a = p := by simpa [oracleHead] using h
      exact ha ▸ List.mem_cons_self a t

theorem oracleHead_sample_subperm : SampleSub oracleHead := by
  intro l n
  exact (List.take_sublist n l).subperm

theorem oracleHead_sample_len : SampleLen oracleHead := by
  intro l n h
  simp only [oracleHead, List.length_take]
  omega

/-- A one-problem catalog: problem "p1" with catalog difficulty 25 under topic "t". -/
def cxStore : ProblemStore :=
  mkProblemStore [⟨"p1", "P1", "u1", "cf", 25, [], [], some "t", []⟩]

/-- An active WeakTopic row for topic "t" practiced at current_level 10. -/
def cxWeak : WeakTopic := ⟨"t", 10, 50, 0, 0, 0, true⟩

/-- A two-problem catalog at difficulty 50 under topics "t1" and "t2". -/
def wStore : ProblemStore :=
  mkProblemStore [⟨"pa", "A", "u", "cf", 50, [], [], some "t1", []⟩,
                  ⟨"pb", "B", "u", "cf", 50, [], [], some "t2", []⟩]

/-! ## Helper lemmas -/

theorem topic_rating_step_bounds (r : Int) (b : Bool) (h1 : 100 ≤ r) (h2 : r ≤ 3000) :
    100 ≤ topic_rating_step r b ∧ topic_rating_step r b ≤ 3000 := by
  unfold topic_rating_step
  rcases b <;> simp only [if_true, if_false, Bool.false_eq_true, ite_false, ite_true] <;>
    constructor <;> omega

/-- C1: the UserTopicRating [100, 3000] bound fails at the default overall rating.  The
row is seeded at the user's overall rating, whose model default is 20; the seed itself is
below 100, and the very first solve update moves it to 25, still far below 100.  (Failure
updates clamp to at least 100, but solve updates only cap at 3000.) -/
theorem C1_topic_rating_bounds_counterexample :
    USER_DEFAULT_RATING = 20 ∧
    (fresh_topic_rating "t" USER_DEFAULT_RATING).rating = 20 ∧
    (regular_step USER_DEFAULT_RATING false
      (fresh_topic_rating "t" USER_DEFAULT_RATING) true).1.rating = 25 ∧
    ¬ (100 ≤ (regular_step USER_DEFAULT_RATING false
      (fresh_topic_rating "t" USER_DEFAULT_RATING) true).1.rating) := by decide

/-- C1 (amended): each Rating Engine update maps a topic rating in [100, 3000] back into
[100, 3000] (solve: +5 capped at 3000; failure: -3 floored at 100), so provided the
seeding overall rating lies within [100, 3000], the topic rating stays within [100, 3000]
after any number of updates. -/
theorem C1_topic_rating_bounds_amended (seed : Int) (updates : List Bool)
    (h1 : 100 ≤ seed) (h2 : seed ≤ 3000) :
    100 ≤ updates.foldl topic_rating_step seed ∧
      updates.foldl topic_rating_step seed ≤ 3000 := by
  induction updates generalizing seed with
  | nil => exact ⟨h1, h2⟩
  | cons b bs ih =>
      have hb := topic_rating_step_bounds seed b h1 h2
      exact ih (topic_rating_step seed b) hb.1 hb.2

theorem C1_topic_rating_bounds_amended_witness :
    (100 ≤ (100 : Int) ∧ (100 : Int) ≤ 3000) ∧
    (100 ≤ [true, false, false].foldl topic_rating_step 100 ∧
      [true, false, false].foldl topic_rating_step 100 ≤ 3000) :=
  ⟨by decide, C1_topic_rating_bounds_amended 100 [true, false, false] (by decide) (by decide)⟩

/-- C10: calculate_contest_result on an empty problem list completes (the PARTIAL lookup
of rating_service.py:48 sits inside a comprehension condition that is never evaluated for
an empty list) and reports a +10 rating change, raising the user's overall rating by 10 -
the all-solved condition holds vacuously even though zero problems were solved. -/
theorem C10_empty_contest_rating (e : EngineState) :
    (calculate_contest_result e []).toOption.map (fun r => r.2.rating_change) =
      some RATING_INCREASE ∧
    (calculate_contest_result e []).toOption.map (fun r => r.1.userRating) =
      some (e.userRating + RATING_INCREASE) ∧
    (calculate_contest_result e []).toOption.map (fun r => r.2.problems_solved) =
      some 0 := by
  exact ⟨rfl, rfl, rfl⟩

/-- C8: on a failing regular-topic result, a WeakTopic is created exactly when, counting
the failing attempt, the topic has at least 2 attempts, the solve ratio is at most one
half, and no WeakTopic is currently active for the topic; the created row starts at
current_level max(10, overall_rating - 20) and target_level overall_rating + 10 taken at
detection time, and a solve never creates one. -/
theorem C8_weak_topic_detection (r : Int) (activeWeak : Bool) (tr : TopicRating) :
    ((regular_step r activeWeak tr false).2.isSome ↔
      (2 ≤ tr.problems_attempted + 1 ∧ 2 * tr.problems_solved ≤ tr.problems_attempted + 1 ∧
        activeWeak = false)) ∧
    (∀ wt, (regular_step r activeWeak tr false).2 = some wt →
      wt.current_level = max 10 (r - 20) ∧ wt.target_level = r + 10 ∧
      wt.is_active = true ∧ wt.consecutive_solves = 0) ∧
    (regular_step r activeWeak tr true).2 = none := by
  by_cases hc : 2 ≤ tr.problems_attempted + 1 ∧
      2 * tr.problems_solved ≤ tr.problems_attempted + 1 ∧ activeWeak = false
  · refine ⟨?_, ?_, rfl⟩
    · simp [regular_step, hc]
    · intro wt hwt
      simp only [regular_step] at hwt
      rw [if_pos hc] at hwt
      cases hwt
      exact ⟨rfl, rfl, rfl, rfl⟩
  · refine ⟨?_, ?_, rfl⟩
    · simp [regular_step, hc]
    · intro wt hwt
      simp only [regular_step] at hwt
      rw [if_neg hc] at hwt
      cases hwt

theorem C8_weak_topic_detection_witness :
    (regular_step 20 false ⟨"t", 20, 0, 1⟩ false).2 = some (detect_weak_topic "t" 20) ∧
    (detect_weak_topic "t" 20).current_level = max 10 ((20 : Int) - 20) ∧
    (detect_weak_topic "t" 20).target_level = (20 : Int) + 10 :=
  ⟨by decide,
   ((C8_weak_topic_detection 20 false ⟨"t", 20, 0, 1⟩).2.1
      (detect_weak_topic "t" 20) (by decide)).1,
   ((C8_weak_topic_detection 20 false ⟨"t", 20, 0, 1⟩).2.1
      (detect_weak_topic "t" 20) (by decide)).2.1⟩

/-- The invariant a WeakTopic row keeps across engine updates: the practice level never
falls below 10 and the solve streak is at most 1. -/
def WeakInv (wt : WeakTopic) : Prop :=
  10 ≤ wt.current_level ∧ wt.consecutive_solves ≤ 1

theorem weakInv_detect (topic : String) (r : Int) : WeakInv (detect_weak_topic topic r) := by
  constructor
  · simp [detect_weak_topic]
  · simp [detect_weak_topic]

theorem weakInv_step (wt : WeakTopic) (b : Bool) (h : WeakInv wt) :
    WeakInv (weak_topic_engine_step wt b) := by
  obtain ⟨h1, h2⟩ := h
  rcases hact : wt.is_active
  · simp only [weak_topic_engine_step, hact, Bool.false_eq_true, if_false]
    exact ⟨h1, h2⟩
  · unfold WeakInv
    simp only [weak_topic_engine_step, weak_topic_step, hact, if_true,
      WEAK_TOPIC_SOLVES_TO_ADVANCE, WEAK_TOPIC_LEVEL_STEP]
    rcases b <;> simp <;> split_ifs <;> refine ⟨?_, ?_⟩ <;> simp <;> omega

theorem weakInv_fold (wt : WeakTopic) (updates : List Bool) (h : WeakInv wt) :
    WeakInv (updates.foldl weak_topic_engine_step wt) := by
  induction updates generalizing wt with
  | nil => exact h
  | cons b bs ih => exact ih _ (weakInv_step wt b h)

theorem weak_step_increase (wt : WeakTopic) (b : Bool) (h : WeakInv wt)
    (hlt : wt.current_level < (weak_topic_engine_step wt b).current_level) :
    (weak_topic_engine_step wt b).current_level = wt.current_level + WEAK_TOPIC_LEVEL_STEP ∧
    b = true ∧ wt.consecutive_solves + 1 = WEAK_TOPIC_SOLVES_TO_ADVANCE ∧
    (weak_topic_engine_step wt b).consecutive_solves = 0 := by
  obtain ⟨h1, h2⟩ := h
  rcases hact : wt.is_active
  · rw [weak_topic_engine_step, hact] at hlt
    simp at hlt
  · unfold weak_topic_engine_step weak_topic_step
      WEAK_TOPIC_SOLVES_TO_ADVANCE WEAK_TOPIC_LEVEL_STEP at hlt ⊢
    rw [hact] at hlt ⊢
    rcases b
    · simp only [Bool.false_eq_true, if_false, ite_false] at hlt
      split_ifs at hlt <;> simp at hlt <;> omega
    · simp only [if_true, ite_true] at hlt ⊢
      simp at hlt ⊢
      split_ifs at hlt ⊢ <;> simp_all <;> omega

/-- C7: starting from its creation at detection time, across any sequence of Rating
Engine updates an active WeakTopic's current_level never goes below 10, and a single
further update raises the level only by exactly WEAK_TOPIC_LEVEL_STEP (+5), only on a
solve whose incremented streak reaches WEAK_TOPIC_SOLVES_TO_ADVANCE (2), after which the
streak is reset to 0. -/
theorem C7_weak_level_monotone (topic : String) (r : Int) (updates : List Bool) (b : Bool) :
    10 ≤ (updates.foldl weak_topic_engine_step (detect_weak_topic topic r)).current_level ∧
    10 ≤ (weak_topic_engine_step
      (updates.foldl weak_topic_engine_step (detect_weak_topic topic r)) b).current_level ∧
    ((updates.foldl weak_topic_engine_step (detect_weak_topic topic r)).current_level <
        (weak_topic_engine_step
          (updates.foldl weak_topic_engine_step (detect_weak_topic topic r)) b).current_level →
      (weak_topic_engine_step
          (updates.foldl weak_topic_engine_step (detect_weak_topic topic r)) b).current_level =
        (updates.foldl weak_topic_engine_step (detect_weak_topic topic r)).current_level +
          WEAK_TOPIC_LEVEL_STEP ∧
      b = true ∧
      (updates.foldl weak_topic_engine_step (detect_weak_topic topic r)).consecutive_solves + 1 =
        WEAK_TOPIC_SOLVES_TO_ADVANCE ∧
      (weak_topic_engine_step
        (updates.foldl weak_topic_engine_step (detect_weak_topic topic r)) b).consecutive_solves
        = 0) := by
  have hinv := weakInv_fold (detect_weak_topic topic r) updates (weakInv_detect topic r)
  refine ⟨hinv.1, (weakInv_step _ b hinv).1, fun hlt => weak_step_increase _ b hinv hlt⟩

theorem C7_weak_level_monotone_witness :
    (detect_weak_topic "t" 20).current_level = 10 ∧
    10 ≤ ([true].foldl weak_topic_engine_step (detect_weak_topic "t" 20)).current_level ∧
    10 ≤ (weak_topic_engine_step
      ([true].foldl weak_topic_engine_step (detect_weak_topic "t" 20)) true).current_level :=
  ⟨by decide, (C7_weak_level_monotone "t" 20 [true] true).1,
   (C7_weak_level_monotone "t" 20 [true] true).2.1⟩

/-! ## Contest lifecycle claims -/

/-- A finished (COMPLETED) contest holding one FAILED problem. -/
def cxEndedProblem : ContestProblemRec := ⟨"p", "t", 30, false, .failed, none, none, none, 0⟩

def cxEndedContest : ContestRec := ⟨.completed, 0, 120, some 100, 0, 0, 0, [cxEndedProblem]⟩

def cxEngine : EngineState := ⟨20, 0, 0, 0, [], []⟩

def cxEndedSys : SysState := ⟨cxEndedContest, cxEngine, []⟩

/-- C3 (counterexample): neither skip_problem nor start_problem checks the parent
contest's status, so on a COMPLETED contest skip_problem still rewrites the problem's
status from FAILED to SKIPPED and stamps submitted_at, and start_problem still sets the
unset started_at timestamp - the record is not frozen once the parent contest ends. -/
theorem C3_frozen_counterexample :
    cxEndedContest.status = ContestStatus.completed ∧
    cxEndedContest.problems.map (fun p => p.status) = [SubmissionStatus.failed] ∧
    (skip_problem 500 "p" cxEndedContest).1.problems.map (fun p => p.status) =
      [SubmissionStatus.skipped] ∧
    (skip_problem 500 "p" cxEndedContest).1.problems.map (fun p => p.submitted_at) =
      [some 500] ∧
    cxEndedContest.problems.map (fun p => p.started_at) = [none] ∧
    (start_problem 500 "p" cxEndedContest).1.problems.map (fun p => p.started_at) =
      [some 500] := by decide

/-- `.first()`-style update and lookup commute: replacing the first row matching `q` and
then querying for the first `q`-match returns the replaced row, as long as the
replacement keeps matching. -/
theorem find?_updateFirst {α : Type} (q : α → Bool) (f : α → α) (l : List α)
    (hf : ∀ x, q x = true → q (f x) = true) :
    (updateFirst q f l).find? q = (l.find? q).map f := by
  induction l with
  | nil => rfl
  | cons x xs ih =>
      by_cases hx : q x = true
      · simp [updateFirst, hx, hf x hx]
      · have hx' : q x = false := by simpa using hx
        simp [updateFirst, hx', ih]

/-- C3 (amended): a ContestProblem of a COMPLETED or ABANDONED contest is frozen against
submit_problem, which rejects with a not-active error and leaves the whole state (status,
timestamps, attempt counter, history) unchanged; but start_problem and skip_problem check
no contest status: on the same terminal contest, start_problem still sets an unset
started_at to the current time, and skip_problem still rewrites the status to SKIPPED and
stamps submitted_at. -/
theorem C3_frozen_amended (now : Int) (pid : String) (solved : Bool) (t : Option Int)
    (s : SysState) (c : ContestRec) (cp : ContestProblemRec)
    (hs : s.contest.status = ContestStatus.completed ∨
      s.contest.status = ContestStatus.abandoned)
    (hc : c.status = ContestStatus.completed ∨ c.status = ContestStatus.abandoned)
    (hfind : c.problems.find? (fun p => p.problem_id == pid) = some cp) :
    submit_problem now pid solved t s = (s, some SvcError.contestNotActive) ∧
    (cp.started_at = none →
      ((start_problem now pid c).1.problems.find? (fun p => p.problem_id == pid)).map
        (fun p => p.started_at) = some (some now)) ∧
    ((skip_problem now pid c).1.problems.find? (fun p => p.problem_id == pid)).map
      (fun p => (p.status, p.submitted_at)) = some (SubmissionStatus.skipped, some now) := by
  refine ⟨?_, ?_, ?_⟩
  · have hne : s.contest.status ≠ ContestStatus.active := by
      rcases hs with h | h <;> simp [h]
    simp [submit_problem, hne]
  · intro hst
    unfold start_problem
    rw [hfind]
    dsimp only
    rw [if_pos hst]
    dsimp only
    rw [find?_updateFirst (fun p => p.problem_id == pid)
      (fun p => { p with started_at := some now }) c.problems (fun x hx => hx), hfind]
    rfl
  · unfold skip_problem
    rw [hfind]
    dsimp only
    rw [find?_updateFirst (fun p => p.problem_id == pid)
      (fun p => { p with status := .skipped, submitted_at := some now }) c.problems
      (fun x hx => hx), hfind]
    rfl

theorem C3_frozen_amended_witness :
    ((cxEndedSys.contest.status = ContestStatus.completed ∨
        cxEndedSys.contest.status = ContestStatus.abandoned) ∧
      (cxEndedContest.status = ContestStatus.completed ∨
        cxEndedContest.status = ContestStatus.abandoned) ∧
      cxEndedContest.problems.find? (fun p => p.problem_id == "p") = some cxEndedProblem) ∧
    (submit_problem 500 "p" true none cxEndedSys =
        (cxEndedSys, some SvcError.contestNotActive) ∧
      (cxEndedProblem.started_at = none →
        ((start_problem 500 "p" cxEndedContest).1.problems.find?
          (fun p => p.problem_id == "p")).map (fun p => p.started_at) = some (some 500)) ∧
      ((skip_problem 500 "p" cxEndedContest).1.problems.find?
        (fun p => p.problem_id == "p")).map (fun p => (p.status, p.submitted_at)) =
        some (SubmissionStatus.skipped, some 500)) :=
  ⟨⟨Or.inl rfl, Or.inl rfl, by decide⟩,
   C3_frozen_amended 500 "p" true none cxEndedSys cxEndedContest cxEndedProblem
     (Or.inl rfl) (Or.inl rfl) (by decide)⟩

theorem process_weak_userRating (e : EngineState) (topic : String) (solved : Bool) :
    (process_weak_topic_result e topic solved).userRating = e.userRating := by
  unfold process_weak_topic_result
  rcases h : e.weakTopics.find? (fun w => w.topic == topic && w.is_active) <;> simp [h]

theorem process_regular_userRating (e : EngineState) (topic : String) (solved : Bool) :
    (process_regular_topic_result e topic solved).userRating = e.userRating := by
  unfold process_regular_topic_result
  rcases h : e.topicRatings.find? (fun t => t.topic == topic) <;> simp [h]

theorem fold_process_userRating (e : EngineState) (ps : List ContestProblemRec) :
    (ps.foldl
      (fun acc p =>
        if p.is_weak_topic_problem then
          process_weak_topic_result acc p.topic (decide (p.status = .solved))
        else process_regular_topic_result acc p.topic (decide (p.status = .solved))) e).userRating
      = e.userRating := by
  induction ps generalizing e with
  | nil => rfl
  | cons p ps ih =>
      rw [List.foldl_cons, ih]
      by_cases hw : p.is_weak_topic_problem <;>
        simp [hw, process_weak_userRating, process_regular_userRating]

theorem filter_length_eq_iff {α : Type} (q : α → Bool) (l : List α) :
    (l.filter q).length = l.length ↔ ∀ a ∈ l, q a = true := by
  induction l with
  | nil => simp
  | cons x xs ih =>
      by_cases hx : q x
      · simp [hx, ih]
      · simp only [List.filter_cons, hx, Bool.false_eq_true, if_false, List.length_cons]
        constructor
        · intro hlen
          have := List.length_filter_le q xs
          omega
        · intro hall
          exact absurd (hall x (List.mem_cons_self x xs)) (by simp [hx])

theorem fail_unfinished_ne_solved (p : ContestProblemRec)
    (h : p.status ≠ SubmissionStatus.solved) :
    (fail_unfinished p).status ≠ SubmissionStatus.solved := by
  unfold fail_unfinished
  split <;> simp_all

theorem fail_unfinished_of_solved (p : ContestProblemRec)
    (h : p.status = SubmissionStatus.solved) : fail_unfinished p = p := by
  unfold fail_unfinished
  split
  · rename_i hps
    rcases hps with hps | hps <;> rw [h] at hps <;> cases hps
  · rfl

/-- An ACTIVE contest holding one SOLVED problem. -/
def cxSolvedProblem : ContestProblemRec := ⟨"p", "t", 30, false, .solved, none, none, some 60, 1⟩

def cxActiveSys : SysState := ⟨⟨.active, 0, 120, none, 0, 0, 0, [cxSolvedProblem]⟩, cxEngine, []⟩

/-- C4 (code bug, evaluated at the failing input): ending an ACTIVE contest whose single
problem is SOLVED does not return rating_change +10 - rating_service.py:48 looks up the
missing `SubmissionStatus.PARTIAL` member and raises AttributeError before any rating
update, for every contest with at least one problem.  end_contest reports that error and
no result: the contest is left COMPLETED with its default rating_change 0 and the user's
rating state is completely unchanged. -/
theorem C4_end_contest_partial_attribute_error :
    cxActiveSys.contest.status = ContestStatus.active ∧
    (∀ p ∈ cxActiveSys.contest.problems, p.status = SubmissionStatus.solved) ∧
    (end_contest 100 cxActiveSys).2.1 = some SvcError.partialAttributeError ∧
    (end_contest 100 cxActiveSys).2.2 = none ∧
    (end_contest 100 cxActiveSys).1.engine = cxActiveSys.engine ∧
    (end_contest 100 cxActiveSys).1.contest.status = ContestStatus.completed ∧
    (end_contest 100 cxActiveSys).1.contest.rating_change = 0 := by decide

theorem fail_unfinished_attempts (p : ContestProblemRec) :
    (fail_unfinished p).attempts = p.attempts := by
  unfold fail_unfinished
  split <;> rfl

theorem fail_unfinished_submitted (p : ContestProblemRec) :
    (fail_unfinished p).submitted_at = p.submitted_at := by
  unfold fail_unfinished
  split <;> rfl

/-- An ACTIVE contest whose 1-minute time limit is long past at time 100. -/
def cxExpiredSys : SysState := ⟨⟨.active, 0, 1, none, 0, 0, 0, [cxSolvedProblem]⟩, cxEngine, []⟩

/-- C6 (code bug, evaluated at the failing input): a submit on an ACTIVE contest whose
time limit has elapsed does enter the auto-end, which commits the COMPLETED transition -
but for any contest with at least one problem the rating engine raises the PARTIAL
AttributeError inside that auto-end.  The exception propagates out of submit_problem, so
no rating result is computed and the time-limit ValueError at contest_service.py:209 is
never raised; the submission itself is still never recorded (attempts, history and the
rating state are unchanged). -/
theorem C6_submit_after_expiry_partial_attribute_error :
    cxExpiredSys.contest.status = ContestStatus.active ∧
    cxExpiredSys.contest.time_limit_minutes * 60 < 100 - cxExpiredSys.contest.started_at ∧
    submit_problem 100 "p" true none cxExpiredSys =
      ((end_contest 100 cxExpiredSys).1, some SvcError.partialAttributeError) ∧
    (submit_problem 100 "p" true none cxExpiredSys).2 ≠ some SvcError.timeLimitExceeded ∧
    (end_contest 100 cxExpiredSys).1.contest.status = ContestStatus.completed ∧
    (end_contest 100 cxExpiredSys).2.2 = none ∧
    (submit_problem 100 "p" true none cxExpiredSys).1.history = cxExpiredSys.history ∧
    (submit_problem 100 "p" true none cxExpiredSys).1.contest.problems.map
      (fun p => p.attempts) = cxExpiredSys.contest.problems.map (fun p => p.attempts) ∧
    (submit_problem 100 "p" true none cxExpiredSys).1.engine = cxExpiredSys.engine := by
  decide

/-! ## create_contest weak-difficulty claims -/

theorem adjust_item_problem (wts : List WeakTopic) (item : SelItem) :
    (adjust_item wts item).problem = item.problem := by
  unfold adjust_item
  split
  · split <;> rfl
  · rfl

/-- C2 (counterexample): a contest created with weak-topic inclusion whose single weak
item comes from topic "t" (catalog difficulty 25) while the user's active WeakTopic for
"t" has current_level 10: the stored ContestProblem difficulty is 25, the catalog
problem's own difficulty, not the WeakTopic's current_level. -/
theorem C2_weak_difficulty_counterexample :
    (create_contest oracleHead cxStore 40 [cxWeak] [] 1 true).toOption.map
      (fun l => l.map (fun c => (c.difficulty, c.is_weak_topic_problem))) =
      some [((25 : Int), true)] ∧
    cxWeak.is_active = true ∧ cxWeak.current_level = 10 ∧
    cxStore.problems.map (fun p => p.difficulty) = [(25 : Int)] ∧
    ((25 : Int) ≠ 10) := by decide

/-- C2 (amended): create_contest overwrites a weak-flagged selection item's (in-memory)
target_difficulty with the active WeakTopic's current_level, but every ContestProblem
row records the catalog problem's own difficulty in its difficulty column - for weak and
non-weak items alike - so the current_level override is never persisted. -/
theorem C2_weak_difficulty_amended :
    (∀ (wts : List WeakTopic) (item : SelItem),
      (mk_contest_problem (adjust_item wts item)).difficulty = item.problem.difficulty) ∧
    (∀ (wts : List WeakTopic) (item : SelItem) (w : WeakTopic),
      item.is_weak_topic_problem = true →
      (wts.filter (fun v => v.topic == item.topic && v.is_active)).head? = some w →
      (adjust_item wts item).target_difficulty = w.current_level) ∧
    (∀ (o : Oracle) (s : ProblemStore) (r : Int) (uw : List WeakTopic)
        (excl : List String) (n : Nat) (iw : Bool) (cps : List ContestProblemRec),
      create_contest o s r uw excl n iw = .ok cps →
      ∃ sel, select_problems_for_contest o s (r + 10) n
          (if iw then (uw.filter (fun w => w.is_active)).map (fun w => w.topic) else [])
          excl iw = some sel ∧
        cps.map (fun c => c.difficulty) = sel.map (fun i => i.problem.difficulty)) := by
  refine ⟨?_, ?_, ?_⟩
  · intro wts item
    rw [show (mk_contest_problem (adjust_item wts item)).difficulty =
        (adjust_item wts item).problem.difficulty from rfl, adjust_item_problem]
  · intro wts item w hweak hhead
    unfold adjust_item
    rw [if_pos hweak, hhead]
  · intro o s r uw excl n iw cps h
    unfold create_contest at h
    dsimp only at h
    rcases hsel : select_problems_for_contest o s (r + 10) n
        (if iw then (uw.filter (fun w => w.is_active)).map (fun w => w.topic) else [])
        excl iw with _ | sel
    · rw [hsel] at h
      cases h
    · rw [hsel] at h
      dsimp only at h
      by_cases hlen : sel.length < n
      · rw [if_pos hlen] at h
        cases h
      · rw [if_neg hlen] at h
        cases h
        refine ⟨sel, hsel, ?_⟩
        rw [List.map_map, List.map_map]
        refine List.map_congr_left ?_
        intro i _
        simp only [Function.comp]
        rw [show (mk_contest_problem (adjust_item uw i)).difficulty =
            (adjust_item uw i).problem.difficulty from rfl, adjust_item_problem]

theorem C2_weak_difficulty_amended_witness :
    (create_contest oracleHead cxStore 40 [cxWeak] [] 1 true =
      Except.ok [⟨"p1", "t", 25, true, .pending, none, none, none, 0⟩]) ∧
    ∃ sel, select_problems_for_contest oracleHead cxStore (40 + 10) 1
        (if true then (([cxWeak].filter (fun w => w.is_active)).map (fun w => w.topic))
         else []) [] true = some sel ∧
      ([(⟨"p1", "t", 25, true, .pending, none, none, none, 0⟩ : ContestProblemRec)].map
        (fun c => c.difficulty)) = sel.map (fun i => i.problem.difficulty) :=
  ⟨rfl, C2_weak_difficulty_amended.2.2 oracleHead cxStore 40 [cxWeak] [] 1 true
    [⟨"p1", "t", 25, true, .pending, none, none, none, 0⟩] rfl⟩

/-! ## Selector invariants -/

/-- The id bookkeeping invariant of the selection passes: the used-id set is exactly the
original exclusion set extended by the ids selected so far, those ids are pairwise
distinct, and none of them comes from the exclusion set. -/
def IdInvAcc (excl : List String) (sel : List SelItem) (used : List String) : Prop :=
  used = excl ++ sel.map (fun i => i.problem.id) ∧
  (sel.map (fun i => i.problem.id)).Nodup ∧
  ∀ i ∈ sel, i.problem.id ∉ excl

theorem IdInvAcc_snoc (excl : List String) (sel : List SelItem) (used : List String)
    (i : SelItem) (h : IdInvAcc excl sel used) (hni : i.problem.id ∉ used) :
    IdInvAcc excl (sel ++ [i]) (used ++ [i.problem.id]) := by
  obtain ⟨h1, h2, h3⟩ := h
  subst h1
  refine ⟨by simp, ?_, ?_⟩
  · have hid : i.problem.id ∉ sel.map (fun j => j.problem.id) := fun hmem =>
      hni (by simp [hmem])
    simp only [List.map_append, List.map_cons, List.map_nil]
    refine List.Nodup.append h2 (List.nodup_singleton _) ?_
    intro a ha hb
    simp only [List.mem_singleton] at hb
    subst hb
    exact hid ha
  · intro j hj
    rcases List.mem_append.mp hj with hj | hj
    · exact h3 j hj
    · simp only [List.mem_singleton] at hj
      subst hj
      intro hc
      exact hni (by simp [hc])

theorem select_problem_for_topic_spec {pickF : List Problem → Option Problem}
    {s : ProblemStore} {topic : String} {d tol : Int} {excl : List String} {p : Problem}
    (hp : ∀ l q, pickF l = some q → q ∈ l) (htol : 0 ≤ tol)
    (h : select_problem_for_topic pickF s topic d tol excl = some p) :
    p ∈ s.problems ∧ p.id ∉ excl ∧ |p.difficulty - d| ≤ 2 * tol := by
  unfold select_problem_for_topic at h
  split at h
  · cases h
  · dsimp only at h
    by_cases hc1 : (List.filter
        (fun p => decide (p.id ∉ excl ∧ |p.difficulty - d| ≤ tol))
        (problemsByTopic s topic)).isEmpty
    · rw [if_pos hc1] at h
      split at h
      · cases h
      · have hmem := hp _ _ h
        obtain ⟨hpool, hcond⟩ := List.mem_filter.mp hmem
        rw [decide_eq_true_eq] at hcond
        unfold problemsByTopic at hpool
        refine ⟨(List.mem_filter.mp hpool).1, hcond.1, by linarith [hcond.2]⟩
    · rw [if_neg hc1] at h
      split at h
      · cases h
      · have hmem := hp _ _ h
        obtain ⟨hpool, hcond⟩ := List.mem_filter.mp hmem
        rw [decide_eq_true_eq] at hcond
        unfold problemsByTopic at hpool
        refine ⟨(List.mem_filter.mp hpool).1, hcond.1, by linarith [hcond.2]⟩

/-- The weak slice only appends: weak-flagged items at the lowered target within the
widened (doubled) tolerance band, at most one per reserved topic, and it preserves the
id bookkeeping invariant. -/
theorem weak_slice_aux_spec (o : Oracle) (s : ProblemStore) (target : Int)
    (hp : PickMem o) (excl : List String) :
    ∀ (ws : List String) (i : Nat) (acc : SliceAcc),
      IdInvAcc excl acc.selected acc.used_ids →
      ∃ d, (weak_slice_aux o s target i ws acc).selected = acc.selected ++ d ∧
        d.length ≤ ws.length ∧
        (∀ j ∈ d, j.is_weak_topic_problem = true ∧ j.target_difficulty = target - 10 ∧
          |j.problem.difficulty - (target - 10)| ≤ 2 * (DIFFICULTY_TOLERANCE + 5)) ∧
        IdInvAcc excl (weak_slice_aux o s target i ws acc).selected
          (weak_slice_aux o s target i ws acc).used_ids := by
  intro ws
  induction ws with
  | nil =>
      intro i acc hacc
      exact ⟨[], by simp [weak_slice_aux], by simp, by simp,
        by simpa [weak_slice_aux] using hacc⟩
  | cons w rest ih =>
      intro i acc hacc
      unfold weak_slice_aux
      cases hsel : select_problem_for_topic (o.pick i) s w (target - 10)
          (DIFFICULTY_TOLERANCE + 5) acc.used_ids with
      | none =>
          obtain ⟨d, hd1, hd2, hd3, hd4⟩ := ih (i + 1) acc hacc
          exact ⟨d, hd1, by simpa using Nat.le_succ_of_le hd2, hd3, hd4⟩
      | some p =>
          have hspec := select_problem_for_topic_spec (hp i) (by decide) hsel
          have hacc' : IdInvAcc excl
              (acc.selected ++ [⟨p, w, true, target - 10⟩])
              (acc.used_ids ++ [p.id]) :=
            IdInvAcc_snoc excl acc.selected acc.used_ids ⟨p, w, true, target - 10⟩
              hacc hspec.2.1
          obtain ⟨d, hd1, hd2, hd3, hd4⟩ := ih (i + 1)
            ⟨acc.selected ++ [⟨p, w, true, target - 10⟩],
             acc.used_topics ++ [w], acc.used_ids ++ [p.id]⟩ hacc'
          refine ⟨⟨p, w, true, target - 10⟩ :: d, ?_, ?_, ?_, hd4⟩
          · rw [hd1]
            simp
          · simpa using Nat.succ_le_succ hd2
          · intro j hj
            rcases List.mem_cons.mp hj with hj | hj
            · subst hj
              exact ⟨rfl, rfl, hspec.2.2⟩
            · exact hd3 j hj

/-- The diversity loop only appends non-weak items at the contest target within the
doubled tolerance band, preserves the id bookkeeping invariant, and never grows the
selection beyond `num` (beyond what it already held). -/
theorem diversity_loop_spec (o : Oracle) (s : ProblemStore) (target : Int) (num : Nat)
    (hp : PickMem o) (excl : List String) :
    ∀ (fuel : Nat) (st st' : LoopSt),
      IdInvAcc excl st.selected st.used_ids →
      diversity_loop o s target num fuel st = some st' →
      ∃ d, st'.selected = st.selected ++ d ∧
        (∀ j ∈ d, j.is_weak_topic_problem = false ∧ j.target_difficulty = target ∧
          |j.problem.difficulty - target| ≤ 2 * DIFFICULTY_TOLERANCE) ∧
        IdInvAcc excl st'.selected st'.used_ids ∧
        st'.selected.length ≤ max st.selected.length num := by
  intro fuel
  induction fuel with
  | zero =>
      intro st st' hinv h
      unfold diversity_loop at h
      cases h
      exact ⟨[], by simp, by simp, hinv, Nat.le_max_left _ _⟩
  | succ fuel ih =>
      intro st st' hinv h
      unfold diversity_loop at h
      split at h
      · cases h
        exact ⟨[], by simp, by simp, hinv, Nat.le_max_left _ _⟩
      · rename_i hlt
        dsimp only at h
        set pr : List String × Nat :=
          (if st.avail.length ≤ st.idx then
            if st.avail.length < st.attempts + 1 then
              (o.shuffleK (st.attempts + 1) (topicKeys s), 0)
            else (st.avail, 0)
          else (st.avail, st.idx)) with hpr
        rcases hget : pr.1.get? pr.2 with _ | topic
        · rw [hget] at h
          cases h
        · rw [hget] at h
          dsimp only at h
          rcases hsel : select_problem_for_topic (o.pick (st.attempts + 1)) s topic target
              DIFFICULTY_TOLERANCE st.used_ids with _ | p
          · rw [hsel] at h
            dsimp only at h
            obtain ⟨d, hd1, hd2, hd3, hd4⟩ := ih
              ⟨st.selected, st.used_topics, st.used_ids, pr.1, pr.2 + 1, st.attempts + 1⟩
              st' hinv h
            exact ⟨d, hd1, hd2, hd3, by simpa using hd4⟩
          · rw [hsel] at h
            dsimp only at h
            have hspec := select_problem_for_topic_spec (hp (st.attempts + 1))
              (by decide) hsel
            have hinv' : IdInvAcc excl (st.selected ++ [⟨p, topic, false, target⟩])
                (st.used_ids ++ [p.id]) :=
              IdInvAcc_snoc excl st.selected st.used_ids ⟨p, topic, false, target⟩
                hinv hspec.2.1
            obtain ⟨d, hd1, hd2, hd3, hd4⟩ := ih _ st' hinv' h
            refine ⟨⟨p, topic, false, target⟩ :: d, ?_, ?_, hd3, ?_⟩
            · rw [hd1]
              simp
            · intro j hj
              rcases List.mem_cons.mp hj with hj | hj
              · subst hj
                exact ⟨rfl, rfl, hspec.2.2⟩
              · exact hd2 j hj
            · simp only [List.length_append, List.length_cons, List.length_nil] at hd4
              simp only [not_le] at hlt
              omega

/-- Every fallback problem is a catalog problem outside the used-id set within the
3x-tolerance band. -/
theorem select_fallback_spec (o : Oracle) (s : ProblemStore) (d : Int) (k : Nat)
    (excl : List String) (hs : SampleSub o) :
    ∀ q ∈ select_fallback_problems o s d k excl,
      q ∈ s.problems ∧ q.id ∉ excl ∧ |q.difficulty - d| ≤ 3 * DIFFICULTY_TOLERANCE := by
  intro q hq
  unfold select_fallback_problems at hq
  dsimp only at hq
  have hmem : q ∈ s.problems.filter (fun p =>
      decide (p.id ∉ excl ∧ |p.difficulty - d| ≤ DIFFICULTY_TOLERANCE * 3)) := by
    split at hq
    · exact hq
    · exact (hs _ k).subset hq
  obtain ⟨hin, hcond⟩ := List.mem_filter.mp hmem
  rw [decide_eq_true_eq] at hcond
  exact ⟨hin, hcond.1, by linarith [hcond.2]⟩

/-- With a globally-unique-id catalog, the fallback slice has pairwise distinct ids. -/
theorem select_fallback_nodup (o : Oracle) (s : ProblemStore) (d : Int) (k : Nat)
    (excl : List String) (hs : SampleSub o)
    (hids : (s.problems.map Problem.id).Nodup) :
    ((select_fallback_problems o s d k excl).map Problem.id).Nodup := by
  unfold select_fallback_problems
  dsimp only
  have hcand : ((s.problems.filter (fun p =>
      decide (p.id ∉ excl ∧ |p.difficulty - d| ≤ DIFFICULTY_TOLERANCE * 3))).map
      Problem.id).Nodup :=
    List.Nodup.sublist ((List.filter_sublist s.problems).map Problem.id) hids
  split
  · exact hcand
  · obtain ⟨l, hperm, hsub⟩ := hs (s.problems.filter (fun p =>
      decide (p.id ∉ excl ∧ |p.difficulty - d| ≤ DIFFICULTY_TOLERANCE * 3))) k
    exact (hperm.map Problem.id).nodup_iff.mp
      (List.Nodup.sublist (hsub.map Problem.id) hcand)

/-- The fallback slice never returns more than the requested count. -/
theorem select_fallback_length (o : Oracle) (s : ProblemStore) (d : Int) (k : Nat)
    (excl : List String) (hlen : SampleLen o) :
    (select_fallback_problems o s d k excl).length ≤ k := by
  unfold select_fallback_problems
  dsimp only
  split
  · assumption
  · rename_i hgt
    rw [hlen _ k (by omega)]

/-- C9: under the catalog's globally-unique-id contract, a single Selector call never
returns the same problem id twice - across the weak slice, the diversity loop (even with
topic repeats) and the fallback slice - and never returns an id from the caller's
exclusion set. -/
theorem C9_selector_no_duplicates (o : Oracle) (s : ProblemStore) (target : Int)
    (num : Nat) (wts excl : List String) (iw : Bool) (sel : List SelItem)
    (hpick : PickMem o) (hsub : SampleSub o)
    (hids : (s.problems.map Problem.id).Nodup)
    (hsel : select_problems_for_contest o s target num wts excl iw = some sel) :
    (sel.map (fun i => i.problem.id)).Nodup ∧ ∀ i ∈ sel, i.problem.id ∉ excl := by
  unfold select_problems_for_contest at hsel
  dsimp only at hsel
  set wcount : Nat :=
    (if iw = true ∧ ¬wts = [] then min wts.length (max 1 (num / 3)) else 0) with hwc
  set acc : SliceAcc := weak_slice_aux o s target 0 (wts.take wcount) ⟨[], [], excl⟩
    with hacc
  have hinv0 : IdInvAcc excl ([] : List SelItem) excl := ⟨by simp, by simp, by simp⟩
  obtain ⟨dw, hw1, hw2, hw3, hw4⟩ := weak_slice_aux_spec o s target hpick excl
    (wts.take wcount) 0 ⟨[], [], excl⟩ hinv0
  rw [← hacc] at hw1 hw4
  set avail : List String :=
    o.shuffleK 0 ((topicKeys s).filter (fun t => decide (t ∉ acc.used_topics))) with havail
  set fuel : Nat := (((num : Int) - acc.selected.length) * 10).toNat with hfuel
  rcases hloop : diversity_loop o s target num fuel
      ⟨acc.selected, acc.used_topics, acc.used_ids, avail, 0, 0⟩ with _ | st
  · rw [hloop] at hsel
    cases hsel
  · rw [hloop] at hsel
    dsimp only at hsel
    obtain ⟨dl, hl1, hl2, hl3, hl4⟩ := diversity_loop_spec o s target num hpick excl fuel
      ⟨acc.selected, acc.used_topics, acc.used_ids, avail, 0, 0⟩ st hw4 hloop
    obtain ⟨hused, hnd, hnex⟩ := hl3
    by_cases hfin : st.selected.length < num
    · rw [if_pos hfin] at hsel
      cases hsel
      set fb : List Problem := select_fallback_problems o s target
        (num - st.selected.length) st.used_ids with hfb
      have hfbspec := select_fallback_spec o s target (num - st.selected.length)
        st.used_ids hsub
      rw [← hfb] at hfbspec
      have hfbnd := select_fallback_nodup o s target (num - st.selected.length)
        st.used_ids hsub hids
      rw [← hfb] at hfbnd
      have hmapmap : ((fb.map (fun p => (⟨p, get_topic p, false, target⟩ : SelItem))).map
          (fun i => i.problem.id)) = fb.map Problem.id := by
        rw [List.map_map]
        rfl
      constructor
      · rw [List.map_append, hmapmap]
        refine List.Nodup.append hnd hfbnd ?_
        intro a ha hb
        obtain ⟨q, hq, rfl⟩ := List.mem_map.mp hb
        have : q.id ∉ st.used_ids := (hfbspec q hq).2.1
        exact this (by rw [hused]; exact List.mem_append_right _ ha)
      · intro i hi
        rcases List.mem_append.mp hi with hi | hi
        · exact hnex i hi
        · obtain ⟨q, hq, rfl⟩ := List.mem_map.mp hi
          intro hcon
          exact (hfbspec q hq).2.1 (by rw [hused]; exact List.mem_append_left _ hcon)
    · rw [if_neg hfin] at hsel
      cases hsel
      exact ⟨hnd, hnex⟩

def wpa : Problem := ⟨"pa", "A", "u", "cf", 50, [], [], some "t1", []⟩

def wpb : Problem := ⟨"pb", "B", "u", "cf", 50, [], [], some "t2", []⟩

def wSel : List SelItem := [⟨wpa, "t1", false, 50⟩, ⟨wpb, "t2", false, 50⟩]

theorem C9_selector_no_duplicates_witness :
    (select_problems_for_contest oracleHead wStore 50 2 [] ["zz"] true = some wSel) ∧
    ((wSel.map (fun i => i.problem.id)).Nodup ∧ ∀ i ∈ wSel, i.problem.id ∉ ["zz"]) :=
  ⟨by decide, C9_selector_no_duplicates oracleHead wStore 50 2 [] ["zz"] true wSel
    oracleHead_pick_mem oracleHead_sample_subperm (by decide) (by decide)⟩

/-- C5 (counterexample): called with num_problems = 0 and a weak topic whose band holds a
candidate, the Selector still reserves max(1, 0 div 3) = 1 weak slot and returns one item,
so the returned sequence is longer than num_problems. -/
theorem C5_selector_counterexample :
    (select_problems_for_contest oracleHead cxStore 50 0 ["t"] [] true).map List.length =
      some 1 ∧ ¬ (1 ≤ (0 : Nat)) := by decide

/-- C5 (amended): for every Selector call with num_problems at least 1, the returned
sequence has length at most num_problems and splits into the weak slice (each item within
(target - 10) plus-minus the doubled widened tolerance 2*(tolerance+5)), the diversity
slice (each item within target plus-minus the doubled tolerance 2*tolerance), and the
fallback slice (each item within target plus-minus 3*tolerance).  With num_problems = 0
the length bound fails (see the counterexample). -/
theorem C5_selector_length_and_bands (o : Oracle) (s : ProblemStore) (target : Int)
    (num : Nat) (wts excl : List String) (iw : Bool) (sel : List SelItem)
    (hpick : PickMem o) (hsub : SampleSub o) (hslen : SampleLen o) (hnum : 1 ≤ num)
    (hsel : select_problems_for_contest o s target num wts excl iw = some sel) :
    sel.length ≤ num ∧
    ∃ w d f, sel = w ++ d ++ f ∧
      (∀ j ∈ w, j.is_weak_topic_problem = true ∧
        |j.problem.difficulty - (target - 10)| ≤ 2 * (DIFFICULTY_TOLERANCE + 5)) ∧
      (∀ j ∈ d, j.is_weak_topic_problem = false ∧
        |j.problem.difficulty - target| ≤ 2 * DIFFICULTY_TOLERANCE) ∧
      (∀ j ∈ f, j.is_weak_topic_problem = false ∧
        |j.problem.difficulty - target| ≤ 3 * DIFFICULTY_TOLERANCE) := by
  unfold select_problems_for_contest at hsel
  dsimp only at hsel
  set wcount : Nat :=
    (if iw = true ∧ ¬wts = [] then min wts.length (max 1 (num / 3)) else 0) with hwc
  have hwcle : wcount ≤ num := by
    rw [hwc]
    split
    · have h3 : num / 3 ≤ num := Nat.div_le_self num 3
      omega
    · omega
  set acc : SliceAcc := weak_slice_aux o s target 0 (wts.take wcount) ⟨[], [], excl⟩
    with hacc
  have hinv0 : IdInvAcc excl ([] : List SelItem) excl := ⟨by simp, by simp, by simp⟩
  obtain ⟨dw, hw1, hw2, hw3, hw4⟩ := weak_slice_aux_spec o s target hpick excl
    (wts.take wcount) 0 ⟨[], [], excl⟩ hinv0
  rw [← hacc] at hw1 hw4
  have hwlen : acc.selected.length ≤ num := by
    rw [hw1]
    simp only [List.nil_append]
    have := List.length_take wcount wts
    omega
  set avail : List String :=
    o.shuffleK 0 ((topicKeys s).filter (fun t => decide (t ∉ acc.used_topics))) with havail
  set fuel : Nat := (((num : Int) - acc.selected.length) * 10).toNat with hfuel
  rcases hloop : diversity_loop o s target num fuel
      ⟨acc.selected, acc.used_topics, acc.used_ids, avail, 0, 0⟩ with _ | st
  · rw [hloop] at hsel
    cases hsel
  · rw [hloop] at hsel
    dsimp only at hsel
    obtain ⟨dl, hl1, hl2, hl3, hl4⟩ := diversity_loop_spec o s target num hpick excl fuel
      ⟨acc.selected, acc.used_topics, acc.used_ids, avail, 0, 0⟩ st hw4 hloop
    dsimp only at hl1 hl4
    have hstlen : st.selected.length ≤ num := by omega
    have hwitems : ∀ j ∈ dw, j.is_weak_topic_problem = true ∧
        |j.problem.difficulty - (target - 10)| ≤ 2 * (DIFFICULTY_TOLERANCE + 5) :=
      fun j hj => ⟨(hw3 j hj).1, (hw3 j hj).2.2⟩
    have hditems : ∀ j ∈ dl, j.is_weak_topic_problem = false ∧
        |j.problem.difficulty - target| ≤ 2 * DIFFICULTY_TOLERANCE :=
      fun j hj => ⟨(hl2 j hj).1, (hl2 j hj).2.2⟩
    have hstsel : st.selected = dw ++ dl := by
      rw [hl1, hw1]
      simp
    by_cases hfin : st.selected.length < num
    · rw [if_pos hfin] at hsel
      cases hsel
      set fb : List Problem := select_fallback_problems o s target
        (num - st.selected.length) st.used_ids with hfb
      have hfbspec := select_fallback_spec o s target (num - st.selected.length)
        st.used_ids hsub
      rw [← hfb] at hfbspec
      have hfblen : fb.length ≤ num - st.selected.length := by
        rw [hfb]
        exact select_fallback_length o s target (num - st.selected.length)
          st.used_ids hslen
      constructor
      · simp only [List.length_append, List.length_map]
        omega
      · refine ⟨dw, dl, fb.map (fun p => (⟨p, get_topic p, false, target⟩ : SelItem)),
          ?_, hwitems, hditems, ?_⟩
        · rw [hstsel]
        · intro j hj
          obtain ⟨q, hq, rfl⟩ := List.mem_map.mp hj
          exact ⟨rfl, (hfbspec q hq).2.2⟩
    · rw [if_neg hfin] at hsel
      cases hsel
      refine ⟨hstlen, dw, dl, [], ?_, hwitems, hditems, by simp⟩
      rw [hstsel]
      simp

theorem C5_selector_length_and_bands_witness :
    ((1 : Nat) ≤ 2 ∧
      select_problems_for_contest oracleHead wStore 50 2 [] [] true = some wSel) ∧
    (wSel.length ≤ 2 ∧
      ∃ w d f, wSel = w ++ d ++ f ∧
        (∀ j ∈ w, j.is_weak_topic_problem = true ∧
          |j.problem.difficulty - ((50 : Int) - 10)| ≤ 2 * (DIFFICULTY_TOLERANCE + 5)) ∧
        (∀ j ∈ d, j.is_weak_topic_problem = false ∧
          |j.problem.difficulty - (50 : Int)| ≤ 2 * DIFFICULTY_TOLERANCE) ∧
        (∀ j ∈ f, j.is_weak_topic_problem = false ∧
          |j.problem.difficulty - (50 : Int)| ≤ 3 * DIFFICULTY_TOLERANCE)) :=
  ⟨⟨by decide, by decide⟩,
   C5_selector_length_and_bands oracleHead wStore 50 2 [] [] true wSel
     oracleHead_pick_mem oracleHead_sample_subperm oracleHead_sample_len
     (by decide) (by decide)⟩
